import Mathlib

/-!
Verification of the causal-RL supply-chain core (`causal_graph.py`, `crl_agent.py`):
a shallow embedding of the causal graph, the Bayesian-inference wrapper, the
causal oracle and the agent's replay buffer / action selection / learn step,
together with theorems settling the specification's claims about them.
-/

namespace CausalRL

/-! ### CausalGraph: variable domains and the fixed healthcare DAG -/

/-- Embedding of `CausalGraph.variable_domains` (causal_graph.py lines 45-72):
variable name paired with its ordered list of discrete states. -/
def variable_domains : List (String × List String) :=
  [("pandemic_severity", ["none", "low", "medium", "high"]),
   ("hurricane_severity", ["none", "low", "medium", "high"]),
   ("cyber_attack_severity", ["none", "low", "medium", "high"]),
   ("port_closure_severity", ["none", "low", "medium", "high"]),
   ("compound_disruption", ["false", "true"]),
   ("supplier_reliability", ["low", "medium", "high"]),
   ("inventory_level", ["critical", "low", "normal", "high"]),
   ("lead_time", ["short", "normal", "extended", "critical"]),
   ("transportation_capacity", ["limited", "normal", "abundant"]),
   ("demand_surge", ["none", "moderate", "high", "extreme"]),
   ("stockout_risk", ["low", "medium", "high", "critical"]),
   ("cost_increase", ["none", "low", "medium", "high"]),
   ("service_disruption", ["none", "minor", "moderate", "severe"]),
   ("recovery_time", ["fast", "normal", "slow", "very_slow"]),
   ("switch_supplier", ["no", "yes"]),
   ("increase_safety_stock", ["no", "yes"]),
   ("emergency_procurement", ["no", "yes"]),
   ("reroute_shipments", ["no", "yes"]),
   ("allocate_resources", ["no", "yes"])]

/-- Embedding of the `causal_edges` list in `CausalGraph.build_healthcare_dag`
(causal_graph.py lines 79-133). -/
def causal_edges : List (String × String) :=
  [("pandemic_severity", "demand_surge"),
   ("pandemic_severity", "supplier_reliability"),
   ("pandemic_severity", "transportation_capacity"),
   ("hurricane_severity", "transportation_capacity"),
   ("hurricane_severity", "supplier_reliability"),
   ("hurricane_severity", "port_closure_severity"),
   ("cyber_attack_severity", "supplier_reliability"),
   ("cyber_attack_severity", "lead_time"),
   ("port_closure_severity", "transportation_capacity"),
   ("port_closure_severity", "lead_time"),
   ("pandemic_severity", "compound_disruption"),
   ("hurricane_severity", "compound_disruption"),
   ("cyber_attack_severity", "compound_disruption"),
   ("supplier_reliability", "lead_time"),
   ("transportation_capacity", "lead_time"),
   ("demand_surge", "inventory_level"),
   ("lead_time", "inventory_level"),
   ("inventory_level", "stockout_risk"),
   ("lead_time", "stockout_risk"),
   ("compound_disruption", "stockout_risk"),
   ("stockout_risk", "service_disruption"),
   ("lead_time", "cost_increase"),
   ("demand_surge", "cost_increase"),
   ("service_disruption", "recovery_time"),
   ("cost_increase", "recovery_time"),
   ("compound_disruption", "recovery_time"),
   ("switch_supplier", "supplier_reliability"),
   ("switch_supplier", "cost_increase"),
   ("increase_safety_stock", "inventory_level"),
   ("increase_safety_stock", "cost_increase"),
   ("emergency_procurement", "inventory_level"),
   ("emergency_procurement", "cost_increase"),
   ("reroute_shipments", "lead_time"),
   ("reroute_shipments", "cost_increase"),
   ("allocate_resources", "service_disruption")]

/-- Embedding of `networkx.DiGraph.add_edge` as the source uses it
(`self.dag.add_edge(cause, effect)`, causal_graph.py line 137): the edge is
inserted into the edge set; no acyclicity check of any kind is performed and
no error can be raised. -/
def add_edge (g : List (String × String)) (cause effect : String) :
    List (String × String) :=
  if g.contains (cause, effect) then g else g ++ [(cause, effect)]

/-- Embedding of `CausalGraph.build_healthcare_dag`: insert every edge of
`causal_edges` into an initially empty graph. -/
def build_healthcare_dag : List (String × String) :=
  causal_edges.foldl (fun g p => add_edge g p.1 p.2) []

/-- Directed reachability by a nonempty path in an edge list: `Reaches g a b`
holds when the graph `g` has a directed path of one or more edges from `a`
to `b`.  A graph is acyclic exactly when no node reaches itself. -/
inductive Reaches (g : List (String × String)) : String → String → Prop where
  | step {a b : String} : g.contains (a, b) = true → Reaches g a b
  | trans {a b c : String} : Reaches g a b → Reaches g b c → Reaches g a c

/-- A topological rank for the healthcare DAG: every edge of `causal_edges`
goes from a strictly lower-ranked variable to a strictly higher-ranked one. -/
def nodeRank (s : String) : Nat :=
  if s = "port_closure_severity" then 1
  else if s = "compound_disruption" then 1
  else if s = "demand_surge" then 1
  else if s = "supplier_reliability" then 2
  else if s = "transportation_capacity" then 2
  else if s = "lead_time" then 3
  else if s = "inventory_level" then 4
  else if s = "cost_increase" then 4
  else if s = "stockout_risk" then 5
  else if s = "service_disruption" then 6
  else if s = "recovery_time" then 7
  else 0

lemma rank_mono : ∀ p ∈ causal_edges, nodeRank p.1 < nodeRank p.2 := by decide

lemma mem_add_edge {g : List (String × String)} {cause effect : String} {e : String × String}
    (h : e ∈ add_edge g cause effect) : e ∈ g ∨ e = (cause, effect) := by
  unfold add_edge at h
  split at h
  · exact Or.inl h
  · rcases List.mem_append.mp h with h1 | h1
    · exact Or.inl h1
    · exact Or.inr (List.mem_singleton.mp h1)

lemma build_subset_edges : ∀ e ∈ build_healthcare_dag, e ∈ causal_edges := by
  intro e he
  unfold build_healthcare_dag at he
  have key : ∀ (l : List (String × String)) (g : List (String × String)),
      (∀ x ∈ g, x ∈ causal_edges) → (∀ x ∈ l, x ∈ causal_edges) →
      e ∈ l.foldl (fun g p => add_edge g p.1 p.2) g → e ∈ causal_edges := by
    intro l
    induction l with
    | nil => intro g hg _ hm; exact hg e hm
    | cons p rest ih =>
      intro g hg hl hm
      refine ih (add_edge g p.1 p.2) ?_ (fun x hx => hl x (List.mem_cons_of_mem _ hx)) hm
      intro x hx
      rcases mem_add_edge hx with h1 | h1
      · exact hg x h1
      · subst h1; exact hl p (List.mem_cons_self _ _)
  exact key causal_edges [] (by intro x hx; cases hx) (fun x hx => hx) he

lemma reaches_rank {g : List (String × String)}
    (hg : ∀ p ∈ g, nodeRank p.1 < nodeRank p.2) :
    ∀ {a b : String}, Reaches g a b → nodeRank a < nodeRank b := by
  intro a b h
  induction h with
  | step hc =>
    have hm := List.mem_of_elem_eq_true hc
    exact hg _ hm
  | trans _ _ ih1 ih2 => exact lt_trans ih1 ih2

/-! ### CausalOracle: context conversion, feasibility and legal actions -/

/-- A context value as supplied by the environment: either a raw number or a
raw categorical string (the Python code branches on `isinstance(value, (int, float))`). -/
inductive CtxVal where
  | num : ℚ → CtxVal
  | str : String → CtxVal
deriving DecidableEq

/-- The fixed-threshold bucketing inside `CausalOracle._convert_context`
(causal_graph.py lines 434-442). -/
def discretize (v : ℚ) : String :=
  if v < 1/4 then "low"
  else if v < 1/2 then "medium"
  else if v < 3/4 then "high"
  else "very_high"

/-- Embedding of `CausalOracle._convert_context` (causal_graph.py lines 426-446):
keys not present in `variable_domains` are dropped; numeric values are bucketed;
string values pass through unchanged. -/
def convert_context (context : List (String × CtxVal)) : List (String × String) :=
  context.filterMap (fun p =>
    if (variable_domains.find? (fun q => q.1 = p.1)).isSome then
      match p.2 with
      | CtxVal.num v => some (p.1, discretize v)
      | CtxVal.str s => some (p.1, s)
    else none)

/-- Python `dict.get(key, default)` over an association list. -/
def dictGet (ctx : List (String × String)) (k d : String) : String :=
  match ctx.find? (fun p => p.1 = k) with
  | some p => p.2
  | none => d

/-- Embedding of `CausalOracle.is_feasible` (causal_graph.py lines 395-412):
the fixed per-action feasibility rules over the converted context, with
`True` as the default rule for unknown action names. -/
def is_feasible (action : String) (context : List (String × CtxVal)) : Bool :=
  let ctx := convert_context context
  if action = "switch_supplier" then dictGet ctx "supplier_reliability" "high" ≠ "high"
  else if action = "increase_safety_stock" then dictGet ctx "inventory_level" "normal" ≠ "high"
  else if action = "emergency_procurement" then
    ["medium", "high", "critical"].contains (dictGet ctx "stockout_risk" "low")
  else if action = "reroute_shipments" then
    dictGet ctx "transportation_capacity" "normal" = "limited"
  else if action = "allocate_resources" then dictGet ctx "service_disruption" "none" ≠ "none"
  else true

/-- Embedding of `CausalOracle.action_variables` (causal_graph.py lines 370-373). -/
def action_variables : List String :=
  ["switch_supplier", "increase_safety_stock", "emergency_procurement",
   "reroute_shipments", "allocate_resources"]

/-- Embedding of `CausalOracle.legal_actions` (causal_graph.py lines 414-417). -/
def legal_actions (context : List (String × CtxVal)) : List String :=
  action_variables.filter (fun a => is_feasible a context)

/-! ### Theorems about the graph and the oracle -/

/-- C9 counterexample: `add_edge` performs no acyclicity check, so a graph
constructed through it can contain a directed cycle — inserting the edges
a→b and b→a succeeds (no `CycleError` exists anywhere in the code) and the
resulting edge set has a cycle through `a`. -/
theorem add_edge_creates_cycle :
    Reaches (add_edge (add_edge [] "a" "b") "b" "a") "a" "a" := by
  have h1 : Reaches (add_edge (add_edge [] "a" "b") "b" "a") "a" "b" :=
    Reaches.step (by decide)
  have h2 : Reaches (add_edge (add_edge [] "a" "b") "b" "a") "b" "a" :=
    Reaches.step (by decide)
  exact Reaches.trans h1 h2

/-- C9 (amended): `add_edge` itself never validates acyclicity, but the fixed
healthcare DAG built at startup is acyclic: `nodeRank` is a topological order
for it — every directed path strictly increases the rank, so no node can
reach itself. -/
theorem healthcare_dag_topological :
    ∀ a b : String, Reaches build_healthcare_dag a b → nodeRank a < nodeRank b := by
  intro a b h
  refine reaches_rank ?_ h
  intro p hp
  exact rank_mono p (build_subset_edges p hp)

/-- Witness for `healthcare_dag_topological` at the concrete edge
pandemic_severity → demand_surge. -/
theorem healthcare_dag_topological_witness :
    nodeRank "pandemic_severity" < nodeRank "demand_surge" :=
  healthcare_dag_topological "pandemic_severity" "demand_surge"
    (Reaches.step (by decide))

/-- C2 counterexample: `legal_actions` ranges only over the five concrete
action variables, so the no-op is never included: on the claim's own scenario
context `{supplier_reliability_score: 0.9}` it returns exactly
`[increase_safety_stock]` (no no-op); moreover the result can even be empty,
e.g. for the context `{inventory_level: high}`, refuting non-emptiness. -/
theorem legal_actions_no_noop_counterexample :
    legal_actions [("supplier_reliability_score", CtxVal.num (9/10))] =
      ["increase_safety_stock"]
    ∧ ("no_action" ∈
        legal_actions [("supplier_reliability_score", CtxVal.num (9/10))]) = False
    ∧ legal_actions [("inventory_level", CtxVal.str "high")] = [] := by
  refine ⟨by decide, ?_, by decide⟩
  simp only [eq_iff_iff, iff_false]
  decide

/-- C2 (amended): for every context, `legal_actions` returns a subset of the
five concrete action variables and never contains the no-op (`no_action`);
it may be empty.  On the scenario context `{supplier_reliability_score: 0.9}`
it excludes `switch_supplier` and returns exactly `[increase_safety_stock]`. -/
theorem legal_actions_subset_actions :
    ∀ context : List (String × CtxVal),
      (∀ a ∈ legal_actions context, a ∈ action_variables)
      ∧ "no_action" ∉ legal_actions context
      ∧ legal_actions [("supplier_reliability_score", CtxVal.num (9/10))] =
          ["increase_safety_stock"] := by
  intro context
  refine ⟨?_, ?_, by decide⟩
  · intro a ha
    exact (List.mem_filter.mp ha).1
  · intro h
    have := (List.mem_filter.mp h).1
    simp [action_variables] at this

/-- Witness for `legal_actions_subset_actions` at the empty context. -/
theorem legal_actions_subset_actions_witness :
    "increase_safety_stock" ∈ action_variables
    ∧ "no_action" ∉ legal_actions [] :=
  ⟨(legal_actions_subset_actions []).1 "increase_safety_stock" (by decide),
   (legal_actions_subset_actions []).2.1⟩

/-- C10: on the empty context every per-action default kicks in —
`switch_supplier` (default supplier_reliability high), `emergency_procurement`
(default stockout_risk low), `reroute_shipments` (default
transportation_capacity normal) and `allocate_resources` (default
service_disruption none) are infeasible while `increase_safety_stock`
(default inventory_level normal) stays feasible — so `legal_actions {}`
is exactly the one-element list `[increase_safety_stock]`. -/
theorem legal_actions_empty_context :
    legal_actions [] = ["increase_safety_stock"]
    ∧ is_feasible "switch_supplier" [] = false
    ∧ is_feasible "emergency_procurement" [] = false
    ∧ is_feasible "reroute_shipments" [] = false
    ∧ is_feasible "allocate_resources" [] = false
    ∧ is_feasible "increase_safety_stock" [] = true := by
  decide

/-! ### ReplayBuffer (crl_agent.py lines 66-84) -/

/-- Embedding of the `Experience` namedtuple (crl_agent.py line 19). -/
structure Experience where
  state : List ℚ
  action : Nat
  reward : ℚ
  next_state : List ℚ
  done : Bool
  causal_effect : ℚ
deriving DecidableEq, Inhabited

/-- Embedding of `ReplayBuffer`: the Python class wraps
`collections.deque(maxlen=capacity)`; the list is kept oldest-first. -/
structure ReplayBuffer where
  capacity : Nat
  buffer : List Experience
deriving DecidableEq

/-- A freshly constructed `ReplayBuffer(capacity)`. -/
def ReplayBuffer.empty (capacity : Nat) : ReplayBuffer := ⟨capacity, []⟩

/-- Current occupancy, `ReplayBuffer.__len__`. -/
def ReplayBuffer.size (b : ReplayBuffer) : Nat := b.buffer.length

/-- Embedding of `ReplayBuffer.push`: `deque(maxlen=capacity).append` appends
on the right and, when the deque is full, discards from the left; with
truncated subtraction the drop count is 0 below capacity and sheds the
oldest entries otherwise. -/
def ReplayBuffer.push (b : ReplayBuffer) (e : Experience) : ReplayBuffer :=
  { b with buffer := (b.buffer ++ [e]).drop ((b.buffer.length + 1) - b.capacity) }

lemma ReplayBuffer.push_capacity (b : ReplayBuffer) (e : Experience) :
    (b.push e).capacity = b.capacity := rfl

lemma ReplayBuffer.push_size_le (b : ReplayBuffer) (e : Experience) :
    (b.push e).size ≤ b.capacity := by
  unfold ReplayBuffer.push ReplayBuffer.size
  simp only [List.length_drop, List.length_append, List.length_singleton]
  omega

lemma ReplayBuffer.push_getLast (b : ReplayBuffer) (e : Experience)
    (h : 0 < b.capacity) : (b.push e).buffer.getLast? = some e := by
  unfold ReplayBuffer.push
  have hk : (b.buffer.length + 1) - b.capacity ≤ b.buffer.length := by omega
  rw [List.drop_append_of_le_length hk, List.getLast?_concat]

/-! ### CausalRLAgent: action naming and the learn step -/

/-- Embedding of `CausalRLAgent.action_mapping.get(action, no_action)`
(crl_agent.py lines 161-168): the dict maps indices 0-5, any other index
falls back to `no_action`. -/
def action_mapping (action : Nat) : String :=
  if action = 0 then "switch_supplier"
  else if action = 1 then "increase_safety_stock"
  else if action = 2 then "emergency_procurement"
  else if action = 3 then "reroute_shipments"
  else if action = 4 then "allocate_resources"
  else "no_action"

/-- The agent hyperparameters relevant to the embedded behavior
(crl_agent.py constructor, lines 93-139). -/
structure AgentParams where
  action_size : Nat
  epsilon_end : ℚ
  epsilon_decay : ℚ
  causal_lambda : ℚ
  use_action_masking : Bool
  use_reward_shaping : Bool
  batch_size : Nat
  target_update_freq : Nat

/-- The mutable agent state touched by `learn` that the embedding models
(epsilon, step counter, replay buffer); the network weights, which the
claims do not mention, are left abstract. -/
structure AgentState where
  epsilon : ℚ
  step_count : Nat
  replay_buffer : ReplayBuffer

/-- One `learn(state, action, reward, next_state, done, context)` call. -/
structure LearnInput where
  state : List ℚ
  action : Nat
  reward : ℚ
  next_state : List ℚ
  done : Bool
  context : List (String × CtxVal)

/-- Embedding of `CausalRLAgent.learn` (crl_agent.py lines 237-280):
compute the causal effect for reward shaping exactly as the nested Python
conditionals do, push the shaped experience, bump the step counter and decay
epsilon.  The training step on the sampled batch and the target-network sync
touch only the (unmodelled) network weights; the sampling guard they sit
behind is analysed separately with `trains_this_step`. -/
def learn (p : AgentParams) (has_oracle : Bool)
    (oracle_effect : String → List (String × CtxVal) → ℚ)
    (s : AgentState) (inp : LearnInput) : AgentState :=
  let causal_effect :=
    if p.use_reward_shaping && has_oracle && !inp.context.isEmpty then
      if action_mapping inp.action = "no_action" then 0
      else oracle_effect (action_mapping inp.action) inp.context
    else 0
  let shaped_reward := inp.reward + p.causal_lambda * causal_effect
  { epsilon := max p.epsilon_end (s.epsilon * p.epsilon_decay),
    step_count := s.step_count + 1,
    replay_buffer := s.replay_buffer.push
      ⟨inp.state, inp.action, shaped_reward, inp.next_state, inp.done, causal_effect⟩ }

/-- The reward-shaping term as the claim words it: the oracle effect exactly
when shaping is on, an oracle is present, the context is non-empty and the
chosen action is not the no-op; otherwise 0. -/
def claimed_effect (p : AgentParams) (has_oracle : Bool)
    (oracle_effect : String → List (String × CtxVal) → ℚ) (inp : LearnInput) : ℚ :=
  if p.use_reward_shaping = true ∧ has_oracle = true ∧ inp.context ≠ []
      ∧ action_mapping inp.action ≠ "no_action" then
    oracle_effect (action_mapping inp.action) inp.context
  else 0

/-- C5: the experience that `learn` stores in the replay buffer carries
reward `environmentReward + causalLambda * causalEffect`, where the causal
effect equals `oracle.effect(actionName, context)` exactly when reward
shaping is enabled, an oracle is present, the context is non-empty and the
chosen action is not the no-op, and 0 otherwise. -/
theorem learn_stores_shaped_reward (p : AgentParams) (has_oracle : Bool)
    (oracle_effect : String → List (String × CtxVal) → ℚ)
    (s : AgentState) (inp : LearnInput) (hcap : 0 < s.replay_buffer.capacity) :
    (learn p has_oracle oracle_effect s inp).replay_buffer.buffer.getLast? =
      some ⟨inp.state, inp.action,
            inp.reward + p.causal_lambda * claimed_effect p has_oracle oracle_effect inp,
            inp.next_state, inp.done,
            claimed_effect p has_oracle oracle_effect inp⟩ := by
  unfold learn
  rw [ReplayBuffer.push_getLast _ _ hcap]
  have heq : (if p.use_reward_shaping && has_oracle && !inp.context.isEmpty then
      if action_mapping inp.action = "no_action" then 0
      else oracle_effect (action_mapping inp.action) inp.context
    else 0) = claimed_effect p has_oracle oracle_effect inp := by
    unfold claimed_effect
    rcases hs : p.use_reward_shaping <;> rcases ho : has_oracle <;>
      rcases hc : inp.context.isEmpty <;>
      rcases hn : decide (action_mapping inp.action = "no_action") <;>
      simp_all [List.isEmpty_iff]
  rw [heq]

/-- Witness for `learn_stores_shaped_reward` at a concrete agent state. -/
theorem learn_stores_shaped_reward_witness :
    (learn ⟨6, 1/100, 995/1000, 3/10, true, true, 32, 100⟩ false (fun _ _ => 0)
        ⟨1, 0, ReplayBuffer.empty 3⟩
        ⟨[], 5, 2, [], false, []⟩).replay_buffer.buffer.getLast? =
      some ⟨[], 5, 2 + (3/10) * claimed_effect ⟨6, 1/100, 995/1000, 3/10, true, true, 32, 100⟩
              false (fun _ _ => 0) ⟨[], 5, 2, [], false, []⟩, [], false,
            claimed_effect ⟨6, 1/100, 995/1000, 3/10, true, true, 32, 100⟩
              false (fun _ _ => 0) ⟨[], 5, 2, [], false, []⟩⟩ :=
  learn_stores_shaped_reward _ false (fun _ _ => 0) _ _ (by decide)

/-! ### Replay-buffer capacity and FIFO eviction (C6) -/

/-- The i-th distinct transition of the C6 scenario. -/
def scenario_exp (i : Nat) : Experience := ⟨[(i : ℚ)], i, (i : ℚ), [], false, 0⟩

/-- The C6 scenario buffer: capacity 3, five distinct pushes. -/
def scenario_buffer : ReplayBuffer :=
  ((List.range 5).map scenario_exp).foldl (fun b e => b.push e) (ReplayBuffer.empty 3)

/-- C6 counterexample: after pushing five distinct transitions (0-indexed
0..4) into a capacity-3 buffer, the buffer holds exactly the transitions at
0-indexed positions 2, 3 and 4 — not positions 3, 4 and 5 as the claim
states (a transition 5 does not even exist among five pushes): transition 2
is retained and differs from transitions 3 and 4. -/
theorem replay_fifo_counterexample :
    scenario_buffer.buffer = [scenario_exp 2, scenario_exp 3, scenario_exp 4]
    ∧ scenario_exp 2 ∈ scenario_buffer.buffer
    ∧ scenario_exp 2 ∉ [scenario_exp 3, scenario_exp 4] := by
  refine ⟨by decide, by decide, by decide⟩

/-- C6 (amended): occupancy never exceeds capacity for any push sequence
from an empty buffer; eviction is FIFO (a push at capacity drops exactly the
oldest entry); and in the scenario — capacity 3, five distinct pushes —
`len()` is 3 and the buffer holds exactly the transitions at 0-indexed
positions 2, 3, 4 of the push sequence (i.e. 3, 4, 5 in 1-indexed counting). -/
theorem replay_capacity_fifo :
    (∀ (cap : Nat) (es : List Experience),
      (es.foldl (fun b e => b.push e) (ReplayBuffer.empty cap)).size ≤ cap)
    ∧ (∀ (b : ReplayBuffer) (e : Experience), b.size = b.capacity → 0 < b.capacity →
        (b.push e).buffer = b.buffer.tail ++ [e])
    ∧ scenario_buffer.size = 3
    ∧ scenario_buffer.buffer = [scenario_exp 2, scenario_exp 3, scenario_exp 4] := by
  refine ⟨?_, ?_, by decide, by decide⟩
  · intro cap es
    have key : ∀ (l : List Experience) (b : ReplayBuffer), b.size ≤ b.capacity →
        (l.foldl (fun b e => b.push e) b).size ≤ (l.foldl (fun b e => b.push e) b).capacity := by
      intro l
      induction l with
      | nil => intro b hb; exact hb
      | cons e rest ih =>
        intro b hb
        exact ih (b.push e) (le_of_le_of_eq (b.push_size_le e) (b.push_capacity e).symm)
    have h := key es (ReplayBuffer.empty cap) (by simp [ReplayBuffer.empty, ReplayBuffer.size])
    have hcap : ∀ (l : List Experience) (b : ReplayBuffer),
        (l.foldl (fun b e => b.push e) b).capacity = b.capacity := by
      intro l
      induction l with
      | nil => intro b; rfl
      | cons e rest ih => intro b; rw [List.foldl_cons, ih, ReplayBuffer.push_capacity]
    rw [hcap] at h
    exact h
  · intro b e hsize hcap
    unfold ReplayBuffer.push
    have h1 : (b.buffer.length + 1) - b.capacity = 1 := by
      unfold ReplayBuffer.size at hsize; omega
    have h2 : (1 : Nat) ≤ b.buffer.length := by
      unfold ReplayBuffer.size at hsize; omega
    rw [h1, List.drop_append_of_le_length h2, List.drop_one]

/-- Witness for `replay_capacity_fifo` at a concrete full buffer. -/
theorem replay_capacity_fifo_witness :
    ((ReplayBuffer.mk 2 [scenario_exp 0, scenario_exp 1]).push (scenario_exp 2)).buffer =
      [scenario_exp 0, scenario_exp 1].tail ++ [scenario_exp 2] :=
  replay_capacity_fifo.2.1 ⟨2, [scenario_exp 0, scenario_exp 1]⟩ (scenario_exp 2)
    (by decide) (by decide)

/-! ### ReplayBuffer.sample and the agent sampling guard (C7) -/

/-- The index draw behind `random.sample(population, k)`: the seed is an
arbitrary stream of candidate indices; appending `range len` guarantees the
pool covers every position, `dedup` makes the draw without replacement, the
filter keeps valid positions, and the first `batch` are taken.  Every seed
yields a without-replacement draw and every such draw arises from some seed;
the uniformity of the stdlib generator itself is outside the embedding. -/
def sampleIndices (seed : List Nat) (len batch : Nat) : List Nat :=
  (((seed ++ List.range len).dedup).filter (fun i => i < len)).take batch

/-- Embedding of `ReplayBuffer.sample` (crl_agent.py lines 78-80):
`random.sample(self.buffer, batch_size)` raises `ValueError` when
`batch_size` exceeds the population and otherwise returns `batch_size`
elements drawn without replacement. -/
def ReplayBuffer.sample (b : ReplayBuffer) (seed : List Nat) (batch_size : Nat) :
    Except String (List Experience) :=
  if b.buffer.length < batch_size then
    Except.error "Sample larger than population or is negative"
  else
    Except.ok ((sampleIndices seed b.buffer.length batch_size).map
      (fun i => b.buffer.getD i default))

/-- The guard in `CausalRLAgent.learn` (crl_agent.py line 268) deciding
whether `_train_step` — and with it `ReplayBuffer.sample(batch_size)` — runs
this step; it is evaluated on the post-push buffer and post-increment step
counter. -/
def trains_this_step (p : AgentParams) (buffer_after : ReplayBuffer)
    (step_after : Nat) : Bool :=
  (p.batch_size ≤ buffer_after.size) && (step_after % 4 = 0)

lemma sampleIndices_nodup (seed : List Nat) (len batch : Nat) :
    (sampleIndices seed len batch).Nodup := by
  unfold sampleIndices
  exact ((List.nodup_dedup _).filter _).sublist (List.take_sublist _ _)

lemma sampleIndices_lt (seed : List Nat) (len batch : Nat) :
    ∀ i ∈ sampleIndices seed len batch, i < len := by
  intro i hi
  have h1 := List.mem_of_mem_take hi
  have h2 := List.of_mem_filter h1
  simpa using h2

lemma sampleIndices_length (seed : List Nat) (len batch : Nat) (h : batch ≤ len) :
    (sampleIndices seed len batch).length = batch := by
  unfold sampleIndices
  rw [List.length_take]
  have hsub : List.range len ⊆
      ((seed ++ List.range len).dedup).filter (fun i => i < len) := by
    intro i hi
    have hlt : i < len := List.mem_range.mp hi
    refine List.mem_filter.mpr ⟨List.mem_dedup.mpr (List.mem_append_right _ hi), by simpa⟩
  have hlen : len ≤ (((seed ++ List.range len).dedup).filter (fun i => i < len)).length := by
    have := ((List.nodup_range len).subperm hsub).length_le
    simpa using this
  omega

/-- C7: `sample(batchSize)` fails exactly when `batchSize` exceeds the
current occupancy (the embedded `random.sample` error) and otherwise returns
`batchSize` stored experiences drawn at pairwise-distinct valid positions
(without replacement); and the training guard inside `learn` only lets
`_train_step` sample once the post-push occupancy is at least `batch_size`,
so a sample issued under the guard never fails. -/
theorem sample_spec (b : ReplayBuffer) (seed : List Nat) (batch : Nat) :
    (b.size < batch → b.sample seed batch =
      Except.error "Sample larger than population or is negative")
    ∧ (batch ≤ b.size → ∃ idxs : List Nat, idxs.Nodup ∧ idxs.length = batch
        ∧ (∀ i ∈ idxs, i < b.size)
        ∧ b.sample seed batch = Except.ok (idxs.map (fun i => b.buffer.getD i default)))
    ∧ (∀ (p : AgentParams) (has_oracle : Bool)
        (oracle_effect : String → List (String × CtxVal) → ℚ)
        (s : AgentState) (inp : LearnInput),
        trains_this_step p (learn p has_oracle oracle_effect s inp).replay_buffer
          (learn p has_oracle oracle_effect s inp).step_count = true →
        ∃ l, (learn p has_oracle oracle_effect s inp).replay_buffer.sample seed
          p.batch_size = Except.ok l) := by
  refine ⟨?_, ?_, ?_⟩
  · intro h
    unfold ReplayBuffer.sample
    unfold ReplayBuffer.size at h
    simp [h]
  · intro h
    refine ⟨sampleIndices seed b.buffer.length batch,
      sampleIndices_nodup _ _ _, sampleIndices_length _ _ _ h,
      sampleIndices_lt _ _ _, ?_⟩
    unfold ReplayBuffer.sample
    unfold ReplayBuffer.size at h
    simp [Nat.not_lt.mpr h]
  · intro p has_oracle oracle_effect s inp hguard
    have hle : p.batch_size ≤
        (learn p has_oracle oracle_effect s inp).replay_buffer.size := by
      unfold trains_this_step at hguard
      have := (Bool.and_eq_true _ _).mp hguard
      exact Nat.le_of_ble_eq_true (by simpa using this.1)
    unfold ReplayBuffer.sample
    unfold ReplayBuffer.size at hle
    simp [Nat.not_lt.mpr hle]

/-- Witness for `sample_spec` at a concrete one-element buffer. -/
theorem sample_spec_witness :
    ∃ idxs : List Nat, idxs.Nodup ∧ idxs.length = 1
      ∧ (∀ i ∈ idxs, i < (ReplayBuffer.mk 3 [scenario_exp 0]).size)
      ∧ (ReplayBuffer.mk 3 [scenario_exp 0]).sample [] 1 =
          Except.ok (idxs.map (fun i =>
            (ReplayBuffer.mk 3 [scenario_exp 0]).buffer.getD i default)) :=
  (sample_spec ⟨3, [scenario_exp 0]⟩ [] 1).2.1 (by decide)

/-! ### Epsilon decay across learn calls (C8) -/

/-- A sequence of successive `learn` calls. -/
def run_learn (p : AgentParams) (has_oracle : Bool)
    (oracle_effect : String → List (String × CtxVal) → ℚ)
    (s : AgentState) (inps : List LearnInput) : AgentState :=
  inps.foldl (learn p has_oracle oracle_effect) s

/-- C8: `learn` always sets epsilon to `max(epsilonFloor, epsilon * decay)`
— regardless of whether a training step occurred — so for a decay factor in
(0, 1] and a non-negative floor, starting at or above the floor: a single
call never increases epsilon, the floor holds after any sequence of calls,
and epsilon is non-increasing across successive calls. -/
theorem epsilon_decay_monotone (p : AgentParams) (has_oracle : Bool)
    (oracle_effect : String → List (String × CtxVal) → ℚ)
    (_h1 : 0 < p.epsilon_decay) (h2 : p.epsilon_decay ≤ 1) (h3 : 0 ≤ p.epsilon_end) :
    ∀ (s : AgentState) (inps : List LearnInput) (inp : LearnInput),
      p.epsilon_end ≤ s.epsilon →
      ((learn p has_oracle oracle_effect s inp).epsilon =
          max p.epsilon_end (s.epsilon * p.epsilon_decay)
        ∧ (learn p has_oracle oracle_effect s inp).epsilon ≤ s.epsilon
        ∧ p.epsilon_end ≤ (run_learn p has_oracle oracle_effect s inps).epsilon
        ∧ (run_learn p has_oracle oracle_effect s (inps ++ [inp])).epsilon ≤
            (run_learn p has_oracle oracle_effect s inps).epsilon) := by
  have step_le : ∀ (s : AgentState) (inp : LearnInput), p.epsilon_end ≤ s.epsilon →
      (learn p has_oracle oracle_effect s inp).epsilon ≤ s.epsilon := by
    intro s inp hfloor
    show max p.epsilon_end (s.epsilon * p.epsilon_decay) ≤ s.epsilon
    have heps : 0 ≤ s.epsilon := le_trans h3 hfloor
    have : s.epsilon * p.epsilon_decay ≤ s.epsilon * 1 :=
      mul_le_mul_of_nonneg_left h2 heps
    exact max_le hfloor (by linarith)
  have step_floor : ∀ (s : AgentState) (inp : LearnInput),
      p.epsilon_end ≤ (learn p has_oracle oracle_effect s inp).epsilon := by
    intro s inp
    exact le_max_left _ _
  have run_floor : ∀ (inps : List LearnInput) (s : AgentState),
      p.epsilon_end ≤ s.epsilon →
      p.epsilon_end ≤ (run_learn p has_oracle oracle_effect s inps).epsilon := by
    intro inps
    induction inps with
    | nil => intro s hs; exact hs
    | cons i rest ih =>
      intro s hs
      exact ih (learn p has_oracle oracle_effect s i) (step_floor s i)
  intro s inps inp hfloor
  refine ⟨rfl, step_le s inp hfloor, run_floor inps s hfloor, ?_⟩
  have hconcat : run_learn p has_oracle oracle_effect s (inps ++ [inp]) =
      learn p has_oracle oracle_effect (run_learn p has_oracle oracle_effect s inps) inp := by
    unfold run_learn
    rw [List.foldl_append, List.foldl_cons, List.foldl_nil]
  rw [hconcat]
  exact step_le _ inp (run_floor inps s hfloor)

/-- Witness for `epsilon_decay_monotone` at concrete hyperparameters, a
concrete state and a two-call sequence. -/
theorem epsilon_decay_monotone_witness :
    (learn ⟨6, 1/100, 995/1000, 3/10, true, true, 32, 100⟩ false (fun _ _ => 0)
        ⟨1, 0, ReplayBuffer.empty 3⟩ ⟨[], 0, 0, [], false, []⟩).epsilon =
      max (1/100) (1 * (995/1000))
    ∧ (learn ⟨6, 1/100, 995/1000, 3/10, true, true, 32, 100⟩ false (fun _ _ => 0)
        ⟨1, 0, ReplayBuffer.empty 3⟩ ⟨[], 0, 0, [], false, []⟩).epsilon ≤ 1
    ∧ (1 : ℚ)/100 ≤ (run_learn ⟨6, 1/100, 995/1000, 3/10, true, true, 32, 100⟩ false
        (fun _ _ => 0) ⟨1, 0, ReplayBuffer.empty 3⟩ [⟨[], 0, 0, [], false, []⟩]).epsilon
    ∧ (run_learn ⟨6, 1/100, 995/1000, 3/10, true, true, 32, 100⟩ false (fun _ _ => 0)
        ⟨1, 0, ReplayBuffer.empty 3⟩
        ([⟨[], 0, 0, [], false, []⟩] ++ [⟨[], 1, 0, [], false, []⟩])).epsilon ≤
      (run_learn ⟨6, 1/100, 995/1000, 3/10, true, true, 32, 100⟩ false (fun _ _ => 0)
        ⟨1, 0, ReplayBuffer.empty 3⟩ [⟨[], 0, 0, [], false, []⟩]).epsilon :=
  epsilon_decay_monotone ⟨6, 1/100, 995/1000, 3/10, true, true, 32, 100⟩ false
    (fun _ _ => 0) (by norm_num) (by norm_num) (by norm_num)
    ⟨1, 0, ReplayBuffer.empty 3⟩ [⟨[], 0, 0, [], false, []⟩]
    ⟨[], 1, 0, [], false, []⟩ (by norm_num)

/-! ### Action selection with causal masking (C3) -/

/-- Embedding of `masked_q_values[mask == 0] = -np.inf` (crl_agent.py lines
202-203): the per-action scores after masking, with `⊥ : WithBot ℚ` standing
for `-inf`. -/
def maskedQ (q : List ℚ) (mask : List Bool) : List (WithBot ℚ) :=
  List.zipWith (fun qi m => if m then (qi : WithBot ℚ) else ⊥) q mask

/-- Embedding of `np.argmax`: the first index attaining the maximum. -/
def np_argmax (l : List (WithBot ℚ)) : Nat := l.indexOf (l.foldr max ⊥)

/-- Embedding of `np.where(mask == 1)[0]` (crl_agent.py line 208): the
indices with mask bit 1, in increasing order. -/
def validIndices (mask : List Bool) : List Nat :=
  (List.range mask.length).filter (fun i => mask.getD i false)

/-- Embedding of `CausalRLAgent.act` (crl_agent.py lines 195-214) for a given
mask.  `greedy` stands for the draw `random.random() > epsilon`; on the
greedy branch the arg-max over the masked scores is returned; on the
exploration branch `np.random.choice(valid_actions)` is modelled by an
arbitrary position `k` into the valid indices, and the empty-mask fallback
`np.random.randint(0, action_size)` by `j % action_size`. -/
def act (greedy : Bool) (q : List ℚ) (mask : List Bool) (k j action_size : Nat) : Nat :=
  if greedy then np_argmax (maskedQ q mask)
  else
    let valid := validIndices mask
    if 0 < valid.length then valid.getD (k % valid.length) 0
    else j % action_size

/-- Embedding of `CausalRLAgent._get_causal_action_mask` (crl_agent.py lines
216-235) for `action_size ≥ 6` (the dict iteration writes mask positions
0-5; the hard-coded mapping has six actions): with an oracle, position `i`
holds the feasibility bit of action `i` (the no-op always 1); without one,
all ones; if no bit is set, the last position is force-enabled. -/
def get_causal_action_mask (has_oracle : Bool) (context : List (String × CtxVal))
    (action_size : Nat) : List Bool :=
  if has_oracle then
    let m := (List.range action_size).map (fun i =>
      if i < 6 then
        (if action_mapping i = "no_action" then true else is_feasible (action_mapping i) context)
      else false)
    if m.any id then m else m.set (action_size - 1) true
  else List.replicate action_size true

lemma le_foldr_max {l : List (WithBot ℚ)} {x : WithBot ℚ} (h : x ∈ l) :
    x ≤ l.foldr max ⊥ := by
  induction l with
  | nil => cases h
  | cons y ys ih =>
    rcases List.mem_cons.mp h with h1 | h1
    · subst h1; exact le_max_left _ _
    · exact le_trans (ih h1) (le_max_right _ _)

lemma foldr_max_mem {l : List (WithBot ℚ)} (h : l ≠ []) : l.foldr max ⊥ ∈ l := by
  induction l with
  | nil => exact absurd rfl h
  | cons y ys ih =>
    cases ys with
    | nil => simp
    | cons z zs =>
      rcases max_choice y ((z :: zs).foldr max ⊥) with h1 | h1
      · rw [List.foldr_cons, h1]; exact List.mem_cons_self _ _
      · rw [List.foldr_cons, h1]
        exact List.mem_cons_of_mem _ (ih (by simp))

lemma maskedQ_getD (q : List ℚ) (mask : List Bool) :
    ∀ i : Nat, i < q.length → i < mask.length →
      (maskedQ q mask).getD i ⊥ =
        if mask.getD i false then (q.getD i 0 : WithBot ℚ) else ⊥ := by
  induction q generalizing mask with
  | nil => intro i h1 _; exact absurd h1 (by simp)
  | cons a as ih =>
    intro i h1 h2
    cases mask with
    | nil => exact absurd h2 (by simp)
    | cons m ms =>
      cases i with
      | zero => simp [maskedQ]
      | succ n =>
        have hn1 : n < as.length := by simpa using h1
        have hn2 : n < ms.length := by simpa using h2
        simpa [maskedQ] using ih ms n hn1 hn2

lemma getD_mem {α : Type} [Inhabited α] {l : List α} {i : Nat} (h : i < l.length)
    (d : α) : l.getD i d ∈ l := by
  rw [List.getD_eq_getElem l d h]
  exact List.getElem_mem h

/-- C3: whenever at least one action has mask bit 1 (and the mask covers the
score vector, as the agent's masks do), `act` returns an index whose mask
bit is 1 — on the greedy branch because every masked-out score is `-inf`
while some score is finite, and on the exploration branch because the draw
is taken among the mask-1 indices.  This covers oracle-computed masks as
well, since they are lists of the same shape. -/
theorem act_respects_mask (greedy : Bool) (q : List ℚ) (mask : List Bool)
    (k j action_size : Nat) (hlen : mask.length = q.length)
    (hany : ∃ i, i < mask.length ∧ mask.getD i false = true) :
    mask.getD (act greedy q mask k j action_size) false = true := by
  obtain ⟨i, hilt, hibit⟩ := hany
  unfold act
  cases greedy with
  | true =>
    simp only [if_pos]
    have hmlen : (maskedQ q mask).length = mask.length := by
      unfold maskedQ
      rw [List.length_zipWith, hlen, Nat.min_self]
    have hientry : (maskedQ q mask).getD i ⊥ = (q.getD i 0 : WithBot ℚ) := by
      rw [maskedQ_getD q mask i (hlen ▸ hilt) hilt, hibit, if_pos rfl]
    have himem : ((q.getD i 0 : ℚ) : WithBot ℚ) ∈ maskedQ q mask := by
      rw [← hientry]
      exact getD_mem (hmlen ▸ hilt) ⊥
    have hne : maskedQ q mask ≠ [] := by
      intro hcon
      rw [hcon] at himem
      cases himem
    set M := (maskedQ q mask).foldr max ⊥ with hM
    have hMmem : M ∈ maskedQ q mask := foldr_max_mem hne
    have hMge : ((q.getD i 0 : ℚ) : WithBot ℚ) ≤ M := le_foldr_max himem
    have hMne : M ≠ ⊥ := by
      intro hcon
      rw [hcon] at hMge
      exact absurd (le_bot_iff.mp hMge) (by simp)
    have hidx : (maskedQ q mask).indexOf M < (maskedQ q mask).length :=
      List.indexOf_lt_length.mpr hMmem
    have hget : (maskedQ q mask).getD ((maskedQ q mask).indexOf M) ⊥ = M := by
      rw [List.getD_eq_getElem _ _ hidx]
      exact List.getElem_indexOf hidx
    have hidx2 : (maskedQ q mask).indexOf M < mask.length := hmlen ▸ hidx
    have hsplit := maskedQ_getD q mask ((maskedQ q mask).indexOf M)
      (hlen ▸ hidx2) hidx2
    rw [hget] at hsplit
    by_cases hb : mask.getD ((maskedQ q mask).indexOf M) false = true
    · exact hb
    · rw [if_neg hb] at hsplit
      exact absurd hsplit hMne
  | false =>
    simp only [Bool.false_eq_true, if_neg, ite_false]
    have hvmem : i ∈ validIndices mask := by
      unfold validIndices
      exact List.mem_filter.mpr ⟨List.mem_range.mpr hilt, by simpa using hibit⟩
    have hvpos : 0 < (validIndices mask).length := List.length_pos.mpr (by
      intro hcon
      rw [hcon] at hvmem
      cases hvmem)
    rw [if_pos hvpos]
    have hkmod : k % (validIndices mask).length < (validIndices mask).length :=
      Nat.mod_lt _ hvpos
    have hrmem : (validIndices mask).getD (k % (validIndices mask).length) 0 ∈
        validIndices mask := getD_mem hkmod 0
    have := List.of_mem_filter hrmem
    simpa using this

/-- Witness for `act_respects_mask` on both branches at a concrete mask. -/
theorem act_respects_mask_witness :
    (([true, false, true] : List Bool).length = ([5, 9, 1] : List ℚ).length
      ∧ (∃ i, i < ([true, false, true] : List Bool).length
          ∧ ([true, false, true] : List Bool).getD i false = true))
    ∧ ([true, false, true] : List Bool).getD (act true [5, 9, 1] [true, false, true] 0 0 3)
        false = true
    ∧ ([true, false, true] : List Bool).getD (act false [5, 9, 1] [true, false, true] 1 0 3)
        false = true :=
  ⟨⟨by decide, ⟨0, by decide, by decide⟩⟩,
   act_respects_mask true [5, 9, 1] [true, false, true] 0 0 3 (by decide)
     ⟨0, by decide, by decide⟩,
   act_respects_mask false [5, 9, 1] [true, false, true] 1 0 3 (by decide)
     ⟨0, by decide, by decide⟩⟩

/-! ### BayesianNetworkInference.estimate_causal_effect (C1, C4) -/

/-- The list named `positive_states` in the source (causal_graph.py line 310),
annotated there with the comment "Negative outcomes"; it is never used by
the computation. -/
def positive_states : List String := ["high", "severe", "critical", "very_slow"]

/-- The list named `negative_states` in the source (causal_graph.py line 311),
annotated there with the comment "Positive outcomes"; this is the list the
computation actually sums over. -/
def negative_states : List String := ["low", "none", "fast", "normal"]

/-- A marginal distribution returned by an inference query: the outcome's
state names with the matching probability values. -/
structure QueryDist where
  state_names : List String
  values : List ℚ
deriving DecidableEq

/-- Embedding of `sum(prob.values[i] for i, state in
enumerate(prob.state_names[outcome]) if state in sel)`. -/
def mass_on (d : QueryDist) (sel : List String) : ℚ :=
  ((d.state_names.zip d.values).filter (fun p => sel.contains p.1)).foldl
    (fun a p => a + p.2) 0

/-- Python dict update `evidence[action] = value` on function-shaped evidence. -/
def setEvidence (ev : String → Option String) (k v : String) :
    String → Option String :=
  fun x => if x = k then some v else ev x

/-- Embedding of `BayesianNetworkInference.estimate_causal_effect`
(causal_graph.py lines 282-325).  The pgmpy `VariableElimination` engine is
external to the repository, so it enters as a parameter mapping the queried
outcome and the evidence to either a marginal distribution or an error; the
Python `try`/`except` around both queries becomes the error branches, each
returning 0.  The computed effect sums, under each intervention, the mass on
the states of the list named `negative_states` — which holds
low/none/fast/normal — and returns the `do(action=no)` mass minus the
`do(action=yes)` mass.  The function is total: no failure propagates. -/
def estimate_causal_effect (fitted : Bool)
    (engine : String → (String → Option String) → Except String QueryDist)
    (action outcome : String) (context : String → Option String) : ℚ :=
  if fitted = false then 0
  else
    match engine outcome (setEvidence context action "yes") with
    | Except.error _ => 0
    | Except.ok prob_action =>
      match engine outcome (setEvidence context action "no") with
      | Except.error _ => 0
      | Except.ok prob_no_action =>
        mass_on prob_no_action negative_states - mass_on prob_action negative_states

/-- Modelled from the spec claim's words (not from the source): the causal
effect as C1 states it — the probability mass on the negative outcome states
high/severe/critical/very_slow under `do(action=no)` minus the mass on those
same states under `do(action=yes)`. -/
def estimate_causal_effect_claimed (fitted : Bool)
    (engine : String → (String → Option String) → Except String QueryDist)
    (action outcome : String) (context : String → Option String) : ℚ :=
  if fitted = false then 0
  else
    match engine outcome (setEvidence context action "yes") with
    | Except.error _ => 0
    | Except.ok prob_action =>
      match engine outcome (setEvidence context action "no") with
      | Except.error _ => 0
      | Except.ok prob_no_action =>
        mass_on prob_no_action positive_states - mass_on prob_action positive_states

/-- A concrete fitted engine over `stockout_risk` for which the action
helps: under `do(increase_safety_stock=yes)` the bad states high/critical
carry mass 0.2, under `do(=no)` they carry 0.5. -/
def engineC1 : String → (String → Option String) → Except String QueryDist :=
  fun _ ev =>
    if ev "increase_safety_stock" = some "yes" then
      Except.ok ⟨["low", "medium", "high", "critical"], [1/2, 3/10, 1/10, 1/10]⟩
    else
      Except.ok ⟨["low", "medium", "high", "critical"], [1/5, 3/10, 3/10, 1/5]⟩

/-- An evidence-free context. -/
def ctxNone : String → Option String := fun _ => none

/-- C1 failing input: on `engineC1` the claim (and the source's own comment
"reduction in bad outcomes is positive") demands +3/10 — the action cuts the
bad-state mass from 1/2 to 1/5 — but the code returns −3/10, because it sums
the list named `negative_states`, which actually holds the positive states
low/none/fast/normal, while the list of truly negative states
(`positive_states`) is never used. -/
theorem estimate_causal_effect_sign_bug :
    estimate_causal_effect true engineC1 "increase_safety_stock" "stockout_risk"
      ctxNone = -(3/10)
    ∧ estimate_causal_effect_claimed true engineC1 "increase_safety_stock"
        "stockout_risk" ctxNone = 3/10
    ∧ estimate_causal_effect true engineC1 "increase_safety_stock" "stockout_risk"
        ctxNone ≠
      estimate_causal_effect_claimed true engineC1 "increase_safety_stock"
        "stockout_risk" ctxNone := by
  have hyes : engineC1 "stockout_risk" (setEvidence ctxNone "increase_safety_stock" "yes") =
      Except.ok ⟨["low", "medium", "high", "critical"], [1/2, 3/10, 1/10, 1/10]⟩ := rfl
  have hno : engineC1 "stockout_risk" (setEvidence ctxNone "increase_safety_stock" "no") =
      Except.ok ⟨["low", "medium", "high", "critical"], [1/5, 3/10, 3/10, 1/5]⟩ := rfl
  have h1 : estimate_causal_effect true engineC1 "increase_safety_stock"
      "stockout_risk" ctxNone = -(3/10) := by
    unfold estimate_causal_effect
    rw [hyes, hno]
    norm_num [mass_on, negative_states, List.zip, List.zipWith, List.filter, List.foldl]
  have h2 : estimate_causal_effect_claimed true engineC1 "increase_safety_stock"
      "stockout_risk" ctxNone = 3/10 := by
    unfold estimate_causal_effect_claimed
    rw [hyes, hno]
    norm_num [mass_on, positive_states, List.zip, List.zipWith, List.filter, List.foldl]
  refine ⟨h1, h2, ?_⟩
  rw [h1, h2]
  norm_num

/-- C4: `estimate_causal_effect` fails closed — it returns exactly 0 whenever
the network is not fitted, for every action, outcome, context and engine;
and when either interventional query fails, the failure is absorbed and 0 is
returned (the embedding is a total function, so no exception can propagate
to the agent). -/
theorem estimate_causal_effect_fail_closed
    (engine : String → (String → Option String) → Except String QueryDist)
    (action outcome : String) (context : String → Option String) :
    estimate_causal_effect false engine action outcome context = 0
    ∧ (∀ msg, engine outcome (setEvidence context action "yes") = Except.error msg →
        estimate_causal_effect true engine action outcome context = 0)
    ∧ (∀ msg, engine outcome (setEvidence context action "no") = Except.error msg →
        estimate_causal_effect true engine action outcome context = 0) := by
  refine ⟨rfl, ?_, ?_⟩
  · intro msg hmsg
    unfold estimate_causal_effect
    rw [hmsg]
    rfl
  · intro msg hmsg
    unfold estimate_causal_effect
    cases h1 : engine outcome (setEvidence context action "yes") with
    | error e => rfl
    | ok d =>
      rw [hmsg]
      rfl

/-- Witness for `estimate_causal_effect_fail_closed` at a concrete failing
engine (every query unsatisfiable). -/
theorem estimate_causal_effect_fail_closed_witness :
    estimate_causal_effect false (fun _ _ => Except.error "unsat") "a" "o" ctxNone = 0
    ∧ estimate_causal_effect true (fun _ _ => Except.error "unsat") "a" "o" ctxNone = 0 :=
  ⟨(estimate_causal_effect_fail_closed (fun _ _ => Except.error "unsat") "a" "o"
      ctxNone).1,
   (estimate_causal_effect_fail_closed (fun _ _ => Except.error "unsat") "a" "o"
      ctxNone).2.1 "unsat" rfl⟩

end CausalRL
